import Mathlib

/-!
Shallow embedding of the NEAR mixer contract (`src/lib.rs` of
open-web-academy/near-mixer) and verification of its specification.

Modelling conventions:
- Rust `String` / `&str` values are modelled as `List Char` (the contract only
  ever compares, concatenates and takes prefixes of strings; for the ASCII
  strings involved, Rust's byte-level operations coincide with the
  character-level ones used here).
- `NearToken` amounts are modelled by their `u128` yoctoNEAR value as a `Nat`
  (overflow of the 128-bit arithmetic is treated explicitly where a claim is
  about it, via `% 2 ^ 128`).
- `Timestamp` (`u64` nanoseconds) is a `Nat`; the one place the source performs
  an unguarded `u64` subtraction (`current_time - deposit.timestamp`) is
  modelled with an explicit underflow outcome `arithmeticUnderflow`, since NEAR
  contracts are built with integer overflow checks, under which the subtraction
  panics when the minuend is smaller (the repository's own test suite runs with
  debug assertions on, where this panic is unconditional).
- `LookupMap` is modelled as an association list, `UnorderedSet` as a list
  without duplicates; only the operations the contract uses are modelled
  (`get`/`insert`/`remove`/`contains_key`, `contains`/`insert`).
- An `assert!`/`expect` failure in a `#[near_bindgen]` method panics; the NEAR
  runtime then discards every state write of the call, so a failing call is
  modelled as `Except.error e` carrying no state: the call-boundary semantics
  `applyOp` keeps the pre-call state on failure. Each `MixerError` constructor
  corresponds to one distinct panic message of the source.
- `format!("{:x}", Sha256(...))` (incremental hashing of `nullifier` then
  `commitment`, equal to hashing their concatenation) is an external pure
  function; the development is parametric in it (`hashHex`), since no claim
  depends on SHA-256 internals beyond its hex digest being nonempty.
-/

namespace NearMixer

/-- Rust strings, as character lists. -/
abbrev Str := List Char

/-- Association-list model of `near_sdk::collections::LookupMap`: `get`. -/
def lookupMapGet {α β : Type} [DecidableEq α] : List (α × β) → α → Option β
  | [], _ => none
  | (k, v) :: rest, key => if k = key then some v else lookupMapGet rest key

/-- Association-list model of `LookupMap::insert` (overwrites any old binding). -/
def lookupMapInsert {α β : Type} [DecidableEq α] (m : List (α × β)) (key : α) (v : β) :
    List (α × β) :=
  (key, v) :: m.filter (fun p => !decide (p.1 = key))

/-- Association-list model of `LookupMap::remove`. -/
def lookupMapRemove {α β : Type} [DecidableEq α] (m : List (α × β)) (key : α) :
    List (α × β) :=
  m.filter (fun p => !decide (p.1 = key))

/-- List model of `UnorderedSet::contains`. -/
def setContains {α : Type} [DecidableEq α] : List α → α → Bool
  | [], _ => false
  | x :: rest, a => if x = a then true else setContains rest a

/-- List model of `UnorderedSet::insert` (no effect when already present). -/
def setInsert {α : Type} [DecidableEq α] (l : List α) (a : α) : List α :=
  if setContains l a then l else a :: l

/-- `NearToken::from_near(n)` in yoctoNEAR: `n * 10^24`. -/
def fromNear (n : Nat) : Nat := n * 10 ^ 24

/-- `DENOMINATIONS`: the three accepted deposit amounts (1, 10, 100 NEAR). -/
def DENOMINATIONS : List Nat := [fromNear 1, fromNear 10, fromNear 100]

/-- `MIN_DELAY`: 24 hours in seconds. -/
def MIN_DELAY : Nat := 3600 * 24

/-- The time-lock threshold actually compared against, in nanoseconds
(`MIN_DELAY * 1_000_000_000` in `withdraw`). -/
def MIN_DELAY_NS : Nat := MIN_DELAY * 1000000000

/-- Modulus of Rust `u128` arithmetic. -/
def U128LIM : Nat := 2 ^ 128

/-- The `Deposit` record stored per commitment. -/
structure Deposit where
  denomination : Nat
  timestamp : Nat
  deriving DecidableEq, Repr

/-- The `Mixer` contract state. -/
structure Mixer where
  deposits : List (Str × Deposit)
  nullifiers : List Str
  owner : Str
  fee_basis_points : Nat
  deposit_counts : List (Nat × Nat)
  deriving DecidableEq, Repr

/-- Every distinct panic message of the source, as an error value (a panic in a
NEAR method aborts the call and reverts all of its state writes). -/
inductive MixerError where
  /-- "Fee cannot exceed 5%" (`new` / `update_fee`). -/
  | feeTooHigh
  /-- "Deposit must be one of the accepted denominations". -/
  | invalidDenomination
  /-- "Commitment already exists". -/
  | duplicateCommitment
  /-- "Nullifier already used". -/
  | nullifierAlreadyUsed
  /-- "Commitment not found". -/
  | commitmentNotFound
  /-- "Invalid proof". -/
  | invalidProof
  /-- "Withdrawal too early, time delay not satisfied". -/
  | withdrawalTooEarly
  /-- Panic of the checked `u64` subtraction `current_time - deposit.timestamp`. -/
  | arithmeticUnderflow
  /-- "Only owner can update fee". -/
  | onlyOwner
  deriving DecidableEq, Repr

/-- `Mixer::new(owner, fee_basis_points)`: asserts `fee_basis_points <= 500`,
then builds the empty state. (The `state_exists` assertion concerns the host
initialization lifecycle, out of the model's scope.) -/
def Mixer.new (owner : Str) (fee_basis_points : Nat) : Except MixerError Mixer :=
  if fee_basis_points ≤ 500 then
    .ok { deposits := [], nullifiers := [], owner := owner,
          fee_basis_points := fee_basis_points, deposit_counts := [] }
  else .error .feeTooHigh

/-- `Mixer::deposit(commitment)` with attached value `attached` at block
timestamp `now`. The source loops over `DENOMINATIONS`; on the (unique) match
it increments that denomination's counter, then asserts a match was found,
then asserts the commitment is fresh, then stores the record. A failed assert
panics, which reverts the counter increment with the rest of the call. -/
def Mixer.deposit (s : Mixer) (attached : Nat) (commitment : Str) (now : Nat) :
    Except MixerError Mixer :=
  let counts :=
    if attached ∈ DENOMINATIONS then
      lookupMapInsert s.deposit_counts attached
        ((lookupMapGet s.deposit_counts attached).getD 0 + 1)
    else s.deposit_counts
  if attached ∈ DENOMINATIONS then
    if (lookupMapGet s.deposits commitment).isSome then .error .duplicateCommitment
    else
      .ok { s with
              deposit_counts := counts,
              deposits := lookupMapInsert s.deposits commitment
                ⟨attached, now⟩ }
  else .error .invalidDenomination

/-- `Mixer::verify_proof(nullifier, commitment, proof)`: rejects proofs shorter
than 32, then checks `proof.starts_with(&result[0..1])` where `result` is the
hex digest of SHA-256 over `nullifier` then `commitment` (parametrised as
`hashHex` applied to the concatenation). -/
def Mixer.verify_proof (hashHex : Str → Str) (nullifier commitment proof : Str) : Bool :=
  if proof.length < 32 then false
  else
    let result := hashHex (nullifier ++ commitment)
    decide (proof.take (result.take 1).length = result.take 1)

/-- The fee computation of `withdraw` (its two arithmetic lines, the spec's
Fee Splitter): `fee = deposit.denomination.as_yoctonear() * fee_basis_points
/ 10000` in `u128` (hence the explicit `% 2^128` on the product), and
`withdrawal_amount = denomination - fee`. -/
def feeSplit (grossAmount feeBasisPoints : Nat) : Nat × Nat :=
  let fee := grossAmount * feeBasisPoints % U128LIM / 10000
  (fee, grossAmount - fee)

/-- `Mixer::withdraw(recipient, nullifier, commitment, proof)` at block
timestamp `now`. Checks, in source order: nullifier unspent, commitment
present, proof valid, time-lock `current_time - deposit.timestamp >=
MIN_DELAY * 1_000_000_000` (whose `u64` subtraction panics on underflow);
then records the nullifier, computes the fee split in `u128`, issues the
transfers (returned as a list of `(account, yoctoNEAR)` intents) and removes
the commitment. -/
def Mixer.withdraw (hashHex : Str → Str) (s : Mixer)
    (recipient nullifier commitment proof : Str) (now : Nat) :
    Except MixerError (Mixer × List (Str × Nat)) :=
  if setContains s.nullifiers nullifier then .error .nullifierAlreadyUsed
  else
    match lookupMapGet s.deposits commitment with
    | none => .error .commitmentNotFound
    | some dep =>
      if ¬ Mixer.verify_proof hashHex nullifier commitment proof then .error .invalidProof
      else if now < dep.timestamp then .error .arithmeticUnderflow
      else if ¬ (now - dep.timestamp ≥ MIN_DELAY_NS) then .error .withdrawalTooEarly
      else
        let fee := (feeSplit dep.denomination s.fee_basis_points).1
        let withdrawal_amount := (feeSplit dep.denomination s.fee_basis_points).2
        let transfers :=
          (if fee > 0 then [(s.owner, fee)] else []) ++ [(recipient, withdrawal_amount)]
        .ok ({ s with
                 nullifiers := setInsert s.nullifiers nullifier,
                 deposits := lookupMapRemove s.deposits commitment }, transfers)

/-- `Mixer::get_pool_stats()`: totals and per-denomination counts, read from
the counters in `DENOMINATIONS` order. -/
def Mixer.get_pool_stats (s : Mixer) : Nat × Nat × List (Nat × Nat) :=
  let by_denomination :=
    DENOMINATIONS.map (fun denom => (denom, (lookupMapGet s.deposit_counts denom).getD 0))
  (by_denomination.foldl (fun acc p => acc + p.2) 0,
   by_denomination.foldl (fun acc p => acc + p.1 * p.2) 0,
   by_denomination)

/-- `Mixer::update_fee(new_fee_basis_points)` called by `caller`
(`env::predecessor_account_id()`): asserts caller is the owner, then the
500-basis-point cap, then stores the new fee. -/
def Mixer.update_fee (s : Mixer) (caller : Str) (new_fee_basis_points : Nat) :
    Except MixerError Mixer :=
  if caller = s.owner then
    if new_fee_basis_points ≤ 500 then
      .ok { s with fee_basis_points := new_fee_basis_points }
    else .error .feeTooHigh
  else .error .onlyOwner

/-- One external call to a mutating contract method, with its host-supplied
context (attached value, block timestamp, caller). -/
inductive Op where
  | deposit (attached : Nat) (commitment : Str) (now : Nat)
  | withdraw (recipient nullifier commitment proof : Str) (now : Nat)
  | updateFee (caller : Str) (new_fee_basis_points : Nat)

/-- Run one call against the state, returning the panic or the new state. -/
def runOp (hashHex : Str → Str) (s : Mixer) : Op → Except MixerError Mixer
  | .deposit attached commitment now => s.deposit attached commitment now
  | .withdraw recipient nullifier commitment proof now =>
      (s.withdraw hashHex recipient nullifier commitment proof now).map Prod.fst
  | .updateFee caller nfbp => s.update_fee caller nfbp

/-- Call-boundary semantics: a panic makes the NEAR runtime discard every
state write of the call, so the observable post-state of a failed call is the
pre-call state. -/
def applyOp (hashHex : Str → Str) (s : Mixer) (op : Op) : Mixer :=
  match runOp hashHex s op with
  | .ok s' => s'
  | .error _ => s

/-- States reachable from a successful `new` by any sequence of calls. -/
inductive Reachable (hashHex : Str → Str) : Mixer → Prop where
  | init (owner : Str) (fbp : Nat) (s : Mixer) :
      Mixer.new owner fbp = .ok s → Reachable hashHex s
  | step (s : Mixer) (op : Op) :
      Reachable hashHex s → Reachable hashHex (applyOp hashHex s op)

/-! ### Helper lemmas on the collection models -/

theorem lookupMapGet_insert_self {α β : Type} [DecidableEq α]
    (m : List (α × β)) (k : α) (v : β) :
    lookupMapGet (lookupMapInsert m k v) k = some v := by
  simp [lookupMapInsert, lookupMapGet]

theorem lookupMapGet_remove_self {α β : Type} [DecidableEq α]
    (m : List (α × β)) (k : α) :
    lookupMapGet (lookupMapRemove m k) k = none := by
  induction m with
  | nil => rfl
  | cons p rest ih =>
    by_cases h : p.1 = k
    · simpa [lookupMapRemove, h] using ih
    · simpa [lookupMapRemove, lookupMapGet, h] using ih

theorem setContains_iff_mem {α : Type} [DecidableEq α] (l : List α) (a : α) :
    setContains l a = true ↔ a ∈ l := by
  induction l with
  | nil => simp [setContains]
  | cons x rest ih =>
    by_cases h : x = a
    · simp [setContains, h]
    · simp [setContains, h, ih, Ne.symm h]

theorem mem_setInsert_self {α : Type} [DecidableEq α] (l : List α) (a : α) :
    a ∈ setInsert l a := by
  unfold setInsert
  by_cases h : setContains l a
  · simpa [h] using (setContains_iff_mem l a).mp (by simpa using h)
  · simp [h]

theorem mem_setInsert_of_mem {α : Type} [DecidableEq α] (l : List α) (a b : α)
    (h : a ∈ l) : a ∈ setInsert l b := by
  unfold setInsert
  by_cases hb : setContains l b <;> simp [hb, h]

/-! ### Concrete states and inputs used by witnesses and counterexamples -/

/-- A concrete stand-in for the SHA-256 hex digest function: every digest is
the one-character string `a`. -/
def hashA : Str → Str := fun _ => ['a']

/-- A 32-character proof whose first character matches every `hashA` digest. -/
def proofA : Str := List.replicate 32 'a'

/-- A 32-character proof whose first character matches no `hashA` digest. -/
def proofB : Str := List.replicate 32 'b'

/-- The state produced by `new(o, 100)`. -/
def mixer0 : Mixer :=
  { deposits := [], nullifiers := [], owner := ['o'],
    fee_basis_points := 100, deposit_counts := [] }

/-- `mixer0` after a successful 1-NEAR deposit of commitment `c` at time 0. -/
def mixer1 : Mixer :=
  { deposits := [(['c'], ⟨fromNear 1, 0⟩)], nullifiers := [], owner := ['o'],
    fee_basis_points := 100, deposit_counts := [(fromNear 1, 1)] }

/-- `mixer1` after a successful withdrawal with nullifier `n` at `MIN_DELAY_NS`. -/
def mixer2 : Mixer :=
  { deposits := [], nullifiers := [['n']], owner := ['o'],
    fee_basis_points := 100, deposit_counts := [(fromNear 1, 1)] }

/-- `mixer2` after a second successful deposit of the same commitment `c`. -/
def mixer3 : Mixer :=
  { deposits := [(['c'], ⟨fromNear 1, MIN_DELAY_NS⟩)], nullifiers := [['n']],
    owner := ['o'], fee_basis_points := 100, deposit_counts := [(fromNear 1, 2)] }

/-! ### Inversion lemmas for successful calls -/

theorem deposit_ok_inv (s : Mixer) (attached : Nat) (c : Str) (now : Nat)
    (s' : Mixer) (h : s.deposit attached c now = .ok s') :
    s' = { s with
             deposit_counts := lookupMapInsert s.deposit_counts attached
               ((lookupMapGet s.deposit_counts attached).getD 0 + 1),
             deposits := lookupMapInsert s.deposits c ⟨attached, now⟩ } ∧
    attached ∈ DENOMINATIONS ∧ (lookupMapGet s.deposits c).isSome = false := by
  unfold Mixer.deposit at h
  split at h
  · split at h
    · simp at h
    · simp_all
  · simp at h

theorem withdraw_ok_inv (hashHex : Str → Str) (s s' : Mixer)
    (tr : List (Str × Nat)) (r n c p : Str) (now : Nat)
    (hw : s.withdraw hashHex r n c p now = .ok (s', tr)) :
    s' = { s with nullifiers := setInsert s.nullifiers n,
                  deposits := lookupMapRemove s.deposits c } := by
  unfold Mixer.withdraw at hw
  split at hw
  · simp at hw
  · split at hw
    · simp at hw
    · split at hw
      · simp at hw
      · split at hw
        · simp at hw
        · split at hw
          · simp at hw
          · simp_all

theorem update_fee_ok_inv (s : Mixer) (caller : Str) (nfbp : Nat) (s' : Mixer)
    (h : s.update_fee caller nfbp = .ok s') :
    s' = { s with fee_basis_points := nfbp } ∧ caller = s.owner ∧ nfbp ≤ 500 := by
  unfold Mixer.update_fee at h
  split at h
  · split at h
    · simp_all
    · simp at h
  · simp at h

/-! ### Claim theorems -/

/-- C1: every failing call — deposit, withdraw or update_fee, failing for any
reason — leaves the observable contract state (commitment store, nullifier
set, per-denomination counters, hence `get_pool_stats`) exactly as it was
before the call: a panic reverts every state write of the call, including the
counter increment a `DuplicateCommitment`-failing deposit performed before its
failing assert. -/
theorem failed_call_leaves_state_unchanged (hashHex : Str → Str) (s : Mixer)
    (op : Op) (e : MixerError) (h : runOp hashHex s op = .error e) :
    applyOp hashHex s op = s ∧
    (applyOp hashHex s op).deposits = s.deposits ∧
    (applyOp hashHex s op).nullifiers = s.nullifiers ∧
    (applyOp hashHex s op).deposit_counts = s.deposit_counts ∧
    (applyOp hashHex s op).get_pool_stats = s.get_pool_stats := by
  simp [applyOp, h]

/-- Witness for C1: a second 1-NEAR deposit of the live commitment `c` fails
with `DuplicateCommitment` and leaves the state — in particular the counter
for the 1-NEAR denomination — unchanged. -/
theorem failed_call_leaves_state_unchanged_witness :
    runOp hashA mixer1 (Op.deposit (fromNear 1) ['c'] 5) =
      .error .duplicateCommitment ∧
    applyOp hashA mixer1 (Op.deposit (fromNear 1) ['c'] 5) = mixer1 ∧
    (applyOp hashA mixer1 (Op.deposit (fromNear 1) ['c'] 5)).deposit_counts =
      mixer1.deposit_counts :=
  ⟨by rfl,
   (failed_call_leaves_state_unchanged hashA mixer1
      (Op.deposit (fromNear 1) ['c'] 5) .duplicateCommitment (by rfl)).1,
   (failed_call_leaves_state_unchanged hashA mixer1
      (Op.deposit (fromNear 1) ['c'] 5) .duplicateCommitment (by rfl)).2.2.2.1⟩

/-- Counterexample to C2 as stated: commitment `c` has a live deposit record in
`mixer1`, yet `deposit(c)` with attached value 2 NEAR — not an accepted
denomination — fails with `InvalidDenomination`, not `DuplicateCommitment`:
the denomination assert precedes the duplicate-commitment assert. -/
theorem second_deposit_nondenom_value_cex :
    (lookupMapGet mixer1.deposits ['c']).isSome = true ∧
    mixer1.deposit (fromNear 2) ['c'] 5 = .error .invalidDenomination := by
  exact ⟨by rfl, by rfl⟩

/-- C2 amended: for every commitment with a live deposit record, a second
`deposit` of it fails with `DuplicateCommitment` for every attached value that
is an accepted denomination (with a non-accepted value the call fails with
`InvalidDenomination` instead, since the denomination check runs first). -/
theorem second_deposit_fails_duplicate (s : Mixer) (attached : Nat) (c : Str)
    (now : Nat) (hlive : (lookupMapGet s.deposits c).isSome = true)
    (hden : attached ∈ DENOMINATIONS) :
    s.deposit attached c now = .error .duplicateCommitment := by
  simp [Mixer.deposit, hden, hlive]

/-- Witness for the amended C2: a second 1-NEAR deposit of the live
commitment `c` of `mixer1` fails with `DuplicateCommitment`. -/
theorem second_deposit_fails_duplicate_witness :
    mixer1.deposit (fromNear 1) ['c'] 5 = .error .duplicateCommitment :=
  second_deposit_fails_duplicate mixer1 (fromNear 1) ['c'] 5 (by rfl) (by decide)

/-- Counterexample to C3 as stated: in the concrete run deposit `c` →
withdraw `c` → deposit `c`, the third call succeeds and gives commitment `c` a
live deposit record again, so after a successful withdrawal a later transition
back to DEPOSITED does exist for the same identifier (the withdrawal deletes
the record and nothing remembers it). -/
theorem withdrawn_commitment_not_terminal_cex :
    mixer0.deposit (fromNear 1) ['c'] 0 = .ok mixer1 ∧
    mixer1.withdraw hashA ['r'] ['n'] ['c'] proofA MIN_DELAY_NS =
      .ok (mixer2, [(['o'], 10 ^ 22), (['r'], 99 * 10 ^ 22)]) ∧
    mixer2.deposit (fromNear 1) ['c'] MIN_DELAY_NS = .ok mixer3 ∧
    lookupMapGet mixer3.deposits ['c'] = some ⟨fromNear 1, MIN_DELAY_NS⟩ :=
  ⟨by rfl, by rfl, by rfl, by rfl⟩

/-- C3 amended: the per-commitment transitions are NONE → DEPOSITED (deposit)
and DEPOSITED → NONE (successful withdrawal deletes the record), so WITHDRAWN
is not a terminal state of the identifier: after a successful withdrawal the
commitment identifier is free again, and a subsequent deposit of it with any
accepted denomination succeeds and returns it to DEPOSITED. -/
theorem withdraw_deletes_record_redeposit_succeeds (hashHex : Str → Str)
    (s s' : Mixer) (tr : List (Str × Nat)) (r n c p : Str) (now : Nat)
    (hw : s.withdraw hashHex r n c p now = .ok (s', tr)) :
    lookupMapGet s'.deposits c = none ∧
    ∀ attached now2, attached ∈ DENOMINATIONS →
      ∃ s'', s'.deposit attached c now2 = .ok s'' ∧
             lookupMapGet s''.deposits c = some ⟨attached, now2⟩ := by
  have hs' := withdraw_ok_inv hashHex s s' tr r n c p now hw
  have hnone : lookupMapGet s'.deposits c = none := by
    rw [hs']
    exact lookupMapGet_remove_self s.deposits c
  refine ⟨hnone, fun attached now2 hden => ?_⟩
  refine ⟨{ s' with
              deposit_counts := lookupMapInsert s'.deposit_counts attached
                ((lookupMapGet s'.deposit_counts attached).getD 0 + 1),
              deposits := lookupMapInsert s'.deposits c ⟨attached, now2⟩ },
          ?_, ?_⟩
  · unfold Mixer.deposit
    simp [hden, hnone]
  · exact lookupMapGet_insert_self s'.deposits c ⟨attached, now2⟩

/-- Witness for the amended C3: applied to the concrete successful withdrawal
from `mixer1`, whose result state `mixer2` no longer has a record for `c`. -/
theorem withdraw_deletes_record_redeposit_succeeds_witness :
    lookupMapGet mixer2.deposits ['c'] = none :=
  (withdraw_deletes_record_redeposit_succeeds hashA mixer1 mixer2
      [(['o'], 10 ^ 22), (['r'], 99 * 10 ^ 22)] ['r'] ['n'] ['c'] proofA
      MIN_DELAY_NS (by rfl)).1

/-- C4: with the nullifier unspent, the commitment live with record timestamp
`dep.timestamp`, the proof valid, and no underflow (`dep.timestamp ≤ now`),
`withdraw` fails with `WithdrawalTooEarly` whenever the elapsed time is
strictly below `MIN_DELAY` (in nanoseconds), and succeeds when it equals
`MIN_DELAY` exactly: the time-lock inequality is inclusive. -/
theorem timelock_inclusive_boundary (hashHex : Str → Str) (s : Mixer)
    (r n c p : Str) (now : Nat) (dep : Deposit)
    (hdep : lookupMapGet s.deposits c = some dep)
    (hnul : setContains s.nullifiers n = false)
    (hpf : Mixer.verify_proof hashHex n c p = true)
    (hle : dep.timestamp ≤ now) :
    (now - dep.timestamp < MIN_DELAY_NS →
       s.withdraw hashHex r n c p now = .error .withdrawalTooEarly) ∧
    (now - dep.timestamp = MIN_DELAY_NS →
       ∃ s' tr, s.withdraw hashHex r n c p now = .ok (s', tr)) := by
  constructor
  · intro hlt
    unfold Mixer.withdraw
    simp [hnul, hdep, hpf, Nat.not_lt.mpr hle, Nat.not_le.mpr hlt]
  · intro heq
    unfold Mixer.withdraw
    simp [hnul, hdep, hpf, Nat.not_lt.mpr hle, heq]

/-- Witness for C4: on `mixer1` (record timestamp 0), withdrawing at time 5
fails with `WithdrawalTooEarly`, and withdrawing at exactly `MIN_DELAY_NS`
succeeds. -/
theorem timelock_inclusive_boundary_witness :
    mixer1.withdraw hashA ['r'] ['n'] ['c'] proofA 5 =
      .error .withdrawalTooEarly ∧
    ∃ s' tr, mixer1.withdraw hashA ['r'] ['n'] ['c'] proofA MIN_DELAY_NS =
      .ok (s', tr) :=
  ⟨(timelock_inclusive_boundary hashA mixer1 ['r'] ['n'] ['c'] proofA 5
      ⟨fromNear 1, 0⟩ (by rfl) (by rfl) (by rfl) (by decide)).1 (by decide),
   (timelock_inclusive_boundary hashA mixer1 ['r'] ['n'] ['c'] proofA
      MIN_DELAY_NS ⟨fromNear 1, 0⟩ (by rfl) (by rfl) (by rfl) (by decide)).2
     (by decide)⟩

/-- C5: the spent-nullifier set is monotone — no call, successful or failed,
ever removes a nullifier — a successful withdrawal records its nullifier, and
any withdraw call presenting a recorded nullifier fails with
`TokenAlreadySpent` ("Nullifier already used"), for every recipient,
commitment and proof. -/
theorem nullifier_set_monotone_single_use (hashHex : Str → Str) :
    (∀ (s : Mixer) (op : Op) (m : Str),
       m ∈ s.nullifiers → m ∈ (applyOp hashHex s op).nullifiers) ∧
    (∀ (s s' : Mixer) (tr : List (Str × Nat)) (r n c p : Str) (now : Nat),
       s.withdraw hashHex r n c p now = .ok (s', tr) → n ∈ s'.nullifiers) ∧
    (∀ (s : Mixer) (r n c p : Str) (now : Nat), n ∈ s.nullifiers →
       s.withdraw hashHex r n c p now = .error .nullifierAlreadyUsed) := by
  refine ⟨?_, ?_, ?_⟩
  · intro s op m hm
    cases hop : runOp hashHex s op with
    | error e => simpa [applyOp, hop] using hm
    | ok s2 =>
      have h2 : applyOp hashHex s op = s2 := by simp [applyOp, hop]
      rw [h2]
      cases op with
      | deposit a c t =>
        obtain ⟨hs2, -, -⟩ := deposit_ok_inv s a c t s2 (by simpa [runOp] using hop)
        rw [hs2]; simpa using hm
      | withdraw r n c p t =>
        simp only [runOp] at hop
        cases hw : Mixer.withdraw hashHex s r n c p t with
        | error e => simp [hw, Except.map] at hop
        | ok pr =>
          rw [hw] at hop
          simp only [Except.map] at hop
          cases hop
          have hs2 := withdraw_ok_inv hashHex s pr.1 pr.2 r n c p t
            (by simpa using hw)
          rw [hs2]
          exact mem_setInsert_of_mem s.nullifiers m n hm
      | updateFee caller nfbp =>
        obtain ⟨hs2, -, -⟩ := update_fee_ok_inv s caller nfbp s2
          (by simpa [runOp] using hop)
        rw [hs2]; simpa using hm
  · intro s s' tr r n c p now hw
    have hs' := withdraw_ok_inv hashHex s s' tr r n c p now hw
    rw [hs']
    exact mem_setInsert_self s.nullifiers n
  · intro s r n c p now hn
    unfold Mixer.withdraw
    simp [(setContains_iff_mem s.nullifiers n).mpr hn]

/-- Witness for C5: after the successful withdrawal from `mixer1` recording
nullifier `n`, `n` is in the spent set of `mixer2`, it survives the later
deposit leading to `mixer3`, and a second withdraw presenting `n` — against a
different recipient, a different commitment and a different proof — fails with
`TokenAlreadySpent`. -/
theorem nullifier_set_monotone_single_use_witness :
    (['n'] : Str) ∈ mixer2.nullifiers ∧
    (['n'] : Str) ∈ (applyOp hashA mixer2
      (Op.deposit (fromNear 1) ['c'] MIN_DELAY_NS)).nullifiers ∧
    mixer3.withdraw hashA ['z'] ['n'] ['c'] proofB (3 * MIN_DELAY_NS) =
      .error .nullifierAlreadyUsed :=
  ⟨(nullifier_set_monotone_single_use hashA).2.1 mixer1 mixer2
      [(['o'], 10 ^ 22), (['r'], 99 * 10 ^ 22)] ['r'] ['n'] ['c'] proofA
      MIN_DELAY_NS (by rfl),
   (nullifier_set_monotone_single_use hashA).1 mixer2
      (Op.deposit (fromNear 1) ['c'] MIN_DELAY_NS) ['n'] (by decide),
   (nullifier_set_monotone_single_use hashA).2.2 mixer3 ['z'] ['n'] ['c']
      proofB (3 * MIN_DELAY_NS) (by decide)⟩

/-- C6: for every accepted denomination `g` and fee rate `b ≤ 500` basis
points, the withdrawal fee split gives `fee = ⌊g * b / 10000⌋` and
`net = g - fee`, so `fee + net = g` and `fee = 0` at `b = 0`; the `u128`
product never overflows, even for the largest denomination times 10000. -/
theorem feeSplit_correct (g b : Nat) (hg : g ∈ DENOMINATIONS) (hb : b ≤ 500) :
    (feeSplit g b).1 = g * b / 10000 ∧
    (feeSplit g b).2 = g - g * b / 10000 ∧
    (feeSplit g b).1 + (feeSplit g b).2 = g ∧
    (b = 0 → (feeSplit g b).1 = 0) ∧
    g * 10000 < U128LIM ∧ g * b < U128LIM := by
  have hgle : g ≤ 100 * 10 ^ 24 := by
    simp only [DENOMINATIONS, fromNear, List.mem_cons,
      List.not_mem_nil, or_false] at hg
    rcases hg with rfl | rfl | rfl <;> norm_num
  have hmul : g * b < U128LIM := by
    calc g * b ≤ 100 * 10 ^ 24 * 500 := Nat.mul_le_mul hgle hb
    _ < U128LIM := by norm_num [U128LIM]
  have hmod : g * b % U128LIM = g * b := Nat.mod_eq_of_lt hmul
  have hfee : (feeSplit g b).1 = g * b / 10000 := by simp [feeSplit, hmod]
  have hnet : (feeSplit g b).2 = g - g * b / 10000 := by simp [feeSplit, hmod]
  have hfee_le : g * b / 10000 ≤ g := by
    have h1 : g * b ≤ g * 10000 :=
      Nat.mul_le_mul_left g (le_trans hb (by norm_num))
    calc g * b / 10000 ≤ g * 10000 / 10000 := Nat.div_le_div_right h1
    _ = g := Nat.mul_div_cancel g (by norm_num)
  refine ⟨hfee, hnet, ?_, ?_, ?_, hmul⟩
  · rw [hfee, hnet]
    exact Nat.add_sub_cancel' hfee_le
  · intro hb0
    simp [feeSplit, hb0]
  · calc g * 10000 ≤ 100 * 10 ^ 24 * 10000 := Nat.mul_le_mul_right 10000 hgle
    _ < U128LIM := by norm_num [U128LIM]

/-- Witness for C6: the split of the 100-NEAR denomination at the maximal fee
rate of 500 basis points recombines to the gross amount. -/
theorem feeSplit_correct_witness :
    (feeSplit (fromNear 100) 500).1 + (feeSplit (fromNear 100) 500).2 =
      fromNear 100 :=
  (feeSplit_correct (fromNear 100) 500 (by decide) (by decide)).2.2.1

/-- The authorization predicate as the spec words it: the proof is at least 32
characters long and its first character equals the first hex character of the
digest of nullifier followed by commitment. -/
def verifySpec (hashHex : Str → Str) (nullifier commitment proof : Str) : Prop :=
  32 ≤ proof.length ∧
  proof.head? = (hashHex (nullifier ++ commitment)).head?

/-- C7: provided the hex digest is nonempty (a SHA-256 hex digest has 64
characters), `verify_proof` returns true exactly when the spec's predicate
holds, and — with the nullifier unspent and the commitment live — `withdraw`
fails with `InvalidAuthorization` ("Invalid proof") whenever the predicate is
false. -/
theorem verify_proof_matches_spec (hashHex : Str → Str) (n c p : Str)
    (hne : hashHex (n ++ c) ≠ []) :
    (Mixer.verify_proof hashHex n c p = true ↔ verifySpec hashHex n c p) ∧
    (∀ (s : Mixer) (r : Str) (now : Nat) (dep : Deposit),
       lookupMapGet s.deposits c = some dep →
       setContains s.nullifiers n = false →
       Mixer.verify_proof hashHex n c p = false →
       s.withdraw hashHex r n c p now = .error .invalidProof) := by
  constructor
  · obtain ⟨h0, rest, hh⟩ : ∃ h0 rest, hashHex (n ++ c) = h0 :: rest := by
      cases hhc : hashHex (n ++ c) with
      | nil => exact absurd hhc hne
      | cons a l => exact ⟨a, l, rfl⟩
    unfold Mixer.verify_proof verifySpec
    rw [hh]
    cases p with
    | nil => simp
    | cons p0 pt =>
      by_cases hlen : (p0 :: pt).length < 32
      · simp [hlen, Nat.lt_iff_add_one_le] at *
      · simp [hlen, List.take, Nat.not_lt.mp hlen]
  · intro s r now dep hdep hnul hbad
    unfold Mixer.withdraw
    simp [hnul, hdep, hbad]

/-- Witness for C7: a proof starting with the digest's first character passes
the predicate, and a 32-character proof starting with a different character
makes the concrete withdrawal fail with "Invalid proof". -/
theorem verify_proof_matches_spec_witness :
    Mixer.verify_proof hashA ['n'] ['c'] proofA = true ∧
    mixer1.withdraw hashA ['r'] ['n'] ['c'] proofB 5 = .error .invalidProof :=
  ⟨(verify_proof_matches_spec hashA ['n'] ['c'] proofA (by decide)).1.mpr
      (by constructor <;> decide),
   (verify_proof_matches_spec hashA ['n'] ['c'] proofB (by decide)).2 mixer1
      ['r'] 5 ⟨fromNear 1, 0⟩ (by rfl) (by rfl) (by rfl)⟩

/-- C8: `new` rejects a fee above 500 basis points, `update_fee` by any caller
other than the owner fails with `Unauthorized` ("Only owner can update fee"),
`update_fee` by the owner above 500 fails with `FeeTooHigh`, no successful
deposit or withdrawal changes the fee, and consequently every reachable state
has `fee_basis_points ≤ 500`. -/
theorem fee_cap_invariant (hashHex : Str → Str) :
    (∀ (owner : Str) (fbp : Nat), 500 < fbp →
       Mixer.new owner fbp = .error .feeTooHigh) ∧
    (∀ (s : Mixer) (caller : Str) (nfbp : Nat), caller ≠ s.owner →
       s.update_fee caller nfbp = .error .onlyOwner) ∧
    (∀ (s : Mixer) (nfbp : Nat), 500 < nfbp →
       s.update_fee s.owner nfbp = .error .feeTooHigh) ∧
    (∀ (s : Mixer) (a : Nat) (c : Str) (t : Nat) (s2 : Mixer),
       s.deposit a c t = .ok s2 → s2.fee_basis_points = s.fee_basis_points) ∧
    (∀ (s s2 : Mixer) (tr : List (Str × Nat)) (r n c p : Str) (now : Nat),
       s.withdraw hashHex r n c p now = .ok (s2, tr) →
       s2.fee_basis_points = s.fee_basis_points) ∧
    (∀ (s : Mixer), Reachable hashHex s → s.fee_basis_points ≤ 500) := by
  have hdep : ∀ (s : Mixer) (a : Nat) (c : Str) (t : Nat) (s2 : Mixer),
      s.deposit a c t = .ok s2 → s2.fee_basis_points = s.fee_basis_points := by
    intro s a c t s2 h
    rw [(deposit_ok_inv s a c t s2 h).1]
  have hwd : ∀ (s s2 : Mixer) (tr : List (Str × Nat)) (r n c p : Str)
      (now : Nat), s.withdraw hashHex r n c p now = .ok (s2, tr) →
      s2.fee_basis_points = s.fee_basis_points := by
    intro s s2 tr r n c p now h
    rw [withdraw_ok_inv hashHex s s2 tr r n c p now h]
  refine ⟨?_, ?_, ?_, hdep, hwd, ?_⟩
  · intro o fbp h
    unfold Mixer.new
    simp [Nat.not_le.mpr h]
  · intro s caller nfbp h
    unfold Mixer.update_fee
    simp [h]
  · intro s nfbp h
    unfold Mixer.update_fee
    simp [Nat.not_le.mpr h]
  · intro s hr
    induction hr with
    | init o fbp s0 h =>
      unfold Mixer.new at h
      split at h
      · injection h with h2
        rw [← h2]
        assumption
      · simp at h
    | step s0 op hr0 ih =>
      cases hop : runOp hashHex s0 op with
      | error e => simpa [applyOp, hop] using ih
      | ok s2 =>
        have h2 : applyOp hashHex s0 op = s2 := by simp [applyOp, hop]
        rw [h2]
        cases op with
        | deposit a c t =>
          rw [hdep s0 a c t s2 (by simpa [runOp] using hop)]
          exact ih
        | withdraw r n c p t =>
          simp only [runOp] at hop
          cases hw : Mixer.withdraw hashHex s0 r n c p t with
          | error e => simp [hw, Except.map] at hop
          | ok pr =>
            rw [hw] at hop
            simp only [Except.map] at hop
            cases hop
            rw [hwd s0 pr.1 pr.2 r n c p t (by simpa using hw)]
            exact ih
        | updateFee caller nfbp =>
          obtain ⟨hs2, -, hle⟩ := update_fee_ok_inv s0 caller nfbp s2
            (by simpa [runOp] using hop)
          rw [hs2]
          simpa using hle

/-- Witness for C8: each clause at a concrete instance — excessive fee at
construction, a non-owner caller, an owner call above the cap, fee
preservation along the concrete deposit and withdrawal, and the cap on the
concrete reachable initial state. -/
theorem fee_cap_invariant_witness :
    Mixer.new ['o'] 600 = .error .feeTooHigh ∧
    mixer1.update_fee ['x'] 200 = .error .onlyOwner ∧
    mixer1.update_fee mixer1.owner 600 = .error .feeTooHigh ∧
    mixer1.fee_basis_points = mixer0.fee_basis_points ∧
    mixer2.fee_basis_points = mixer1.fee_basis_points ∧
    mixer0.fee_basis_points ≤ 500 :=
  ⟨(fee_cap_invariant hashA).1 ['o'] 600 (by decide),
   (fee_cap_invariant hashA).2.1 mixer1 ['x'] 200 (by decide),
   (fee_cap_invariant hashA).2.2.1 mixer1 600 (by decide),
   (fee_cap_invariant hashA).2.2.2.1 mixer0 (fromNear 1) ['c'] 0 mixer1
     (by rfl),
   (fee_cap_invariant hashA).2.2.2.2.1 mixer1 mixer2
     [(['o'], 10 ^ 22), (['r'], 99 * 10 ^ 22)] ['r'] ['n'] ['c'] proofA
     MIN_DELAY_NS (by rfl),
   (fee_cap_invariant hashA).2.2.2.2.2 mixer0
     (Reachable.init ['o'] 100 mixer0 (by rfl))⟩

/-- C9: a successful withdrawal leaves the per-denomination deposit counters
untouched, so `get_pool_stats` — total count, total amount and per-denomination
counts — is identical before and after it: the statistics are cumulative
deposit totals, not the current pool balance. -/
theorem withdraw_preserves_pool_stats (hashHex : Str → Str) (s s2 : Mixer)
    (tr : List (Str × Nat)) (r n c p : Str) (now : Nat)
    (h : s.withdraw hashHex r n c p now = .ok (s2, tr)) :
    s2.deposit_counts = s.deposit_counts ∧
    s2.get_pool_stats = s.get_pool_stats := by
  have hs2 := withdraw_ok_inv hashHex s s2 tr r n c p now h
  constructor
  · rw [hs2]
  · rw [hs2]
    rfl

/-- Witness for C9: the concrete successful withdrawal from `mixer1` leaves
`get_pool_stats` unchanged (one 1-NEAR deposit counted before and after). -/
theorem withdraw_preserves_pool_stats_witness :
    mixer2.get_pool_stats = mixer1.get_pool_stats :=
  (withdraw_preserves_pool_stats hashA mixer1 mixer2
     [(['o'], 10 ^ 22), (['r'], 99 * 10 ^ 22)] ['r'] ['n'] ['c'] proofA
     MIN_DELAY_NS (by rfl)).2

/-- A deposit record whose timestamp lies in the future of a withdraw call,
for exercising the unguarded `u64` subtraction. -/
def mixerLate : Mixer :=
  { deposits := [(['d'], ⟨fromNear 1, 100⟩)], nullifiers := [], owner := ['o'],
    fee_basis_points := 100, deposit_counts := [(fromNear 1, 1)] }

/-- C10: the time-lock check subtracts `deposit.timestamp` from the current
block timestamp with an unguarded `u64` subtraction: once the earlier checks
pass, whenever `now` is at least the record timestamp the subtraction is well
defined (the call fails with `WithdrawalTooEarly` or proceeds), and whenever
`now` is strictly smaller the call aborts with the arithmetic-underflow panic,
not with `WithdrawalTooEarly`. -/
theorem timelock_subtraction_underflow (hashHex : Str → Str) (s : Mixer)
    (r n c p : Str) (now : Nat) (dep : Deposit)
    (hdep : lookupMapGet s.deposits c = some dep)
    (hnul : setContains s.nullifiers n = false)
    (hpf : Mixer.verify_proof hashHex n c p = true) :
    (now < dep.timestamp →
       s.withdraw hashHex r n c p now = .error .arithmeticUnderflow) ∧
    (dep.timestamp ≤ now →
       s.withdraw hashHex r n c p now ≠ .error .arithmeticUnderflow) := by
  constructor
  · intro hlt
    unfold Mixer.withdraw
    simp [hnul, hdep, hpf, hlt]
  · intro hge hcon
    unfold Mixer.withdraw at hcon
    simp [hnul, hdep, hpf, Nat.not_lt.mpr hge] at hcon
    split at hcon <;> simp_all

/-- Witness for C10: on `mixerLate` (record timestamp 100), withdrawing at
time 5 hits the underflow abort, while withdrawing at time 100 does not. -/
theorem timelock_subtraction_underflow_witness :
    mixerLate.withdraw hashA ['r'] ['n'] ['d'] proofA 5 =
      .error .arithmeticUnderflow ∧
    mixerLate.withdraw hashA ['r'] ['n'] ['d'] proofA 100 ≠
      .error .arithmeticUnderflow :=
  ⟨(timelock_subtraction_underflow hashA mixerLate ['r'] ['n'] ['d'] proofA 5
      ⟨fromNear 1, 100⟩ (by rfl) (by rfl) (by rfl)).1 (by decide),
   (timelock_subtraction_underflow hashA mixerLate ['r'] ['n'] ['d'] proofA
      100 ⟨fromNear 1, 100⟩ (by rfl) (by rfl) (by rfl)).2 (by decide)⟩

end NearMixer
